import Mathlib

/-!
Verification development for the Slate-DIT transfer engine.

This file gives a shallow embedding, in Lean 4, of the parts of the
repository that the checked claims are about:

* `TransferWorker.run`, `TransferWorker._copy_file_with_progress` and
  `TransferWorker._calculate_hash` (src/workers.py, lines 199-390),
* `MHLVerifyWorker.run` and `MHLVerifyWorker._calculate_hash`
  (src/workers.py, lines 392-502),
* `JobManager.start_or_pause_queue`, `JobManager._start_available_jobs`
  and the rolling speed/ETA computation of
  `JobManager._on_worker_progress_updated` (src/job_manager.py).

Modelling conventions, stated once:

* The filesystem is an association list from path strings to byte lists;
  a later `fsWrite` shadows earlier bindings, and `fsLookup` returns the
  most recent one.  Bytes are `Nat`s (their numeric value is irrelevant
  to every claim; only list equality matters).
* The two digest algorithms (`xxhash.xxh64`, `hashlib.md5`) are opaque
  parameters `xxh md5 : Bytes -> String`.  Reading a file in chunks and
  updating a streaming hasher yields the digest of the whole content, so
  `_calculate_hash` is embedded as the digest of the file's content.
* The `is_cancelled` flag is set asynchronously by `cancel()` and only
  ever goes from `false` to `true`.  It is embedded as a `Sched`: the
  index of the first flag read that observes `true` (all later reads
  also observe `true`), `none` when cancellation is never requested.
  Each place the Python code reads `self.is_cancelled` consumes one
  index.  `is_paused` is modelled as always `false`: pausing only delays
  execution at the same checkpoints and no claim concerns it.
* The directory walk at the top of `TransferWorker.run` enumerates the
  job's files; the embedding takes the resulting file list (source file
  path plus its resolved destination paths, in walk order) as input, and
  keeps the walk's one cancellation check per discovered file.
* Progress signals carrying the cumulative byte counter are collected in
  an `emits` list; file-open syscalls are collected in an `events` list
  (one `Ev.openRead` per `open(path, 'rb')`, one `Ev.openWrite` per
  `open(path, 'wb')`/`open(path, 'ab')`, in program order).
* A "critical" exception escaping the per-file try block is modelled by
  an `Option String`: its only claim-relevant effect is the status and
  error-list rewrite of workers.py lines 344-349, applied at job
  finalization.
* Wall-clock times and Python floats are modelled by rationals.
-/

/-! ## Filesystem model -/

abbrev Bytes := List Nat

abbrev FS := List (String × Bytes)

def fsLookup : FS → String → Option Bytes
  | [], _ => none
  | (q, b) :: rest, p => if p = q then some b else fsLookup rest p

/-- Embeds `os.path.exists`. -/
def fsExists (fs : FS) (p : String) : Bool :=
  (fsLookup fs p).isSome

/-- Embeds `os.path.getsize` (0 for a missing file; the embedding only takes
sizes of files that exist). -/
def fsSize (fs : FS) (p : String) : Nat :=
  ((fsLookup fs p).getD []).length

/-- Writing a file: the new binding shadows any previous one. -/
def fsWrite (fs : FS) (p : String) (b : Bytes) : FS :=
  (p, b) :: fs


/-- Worker for `basename`: the characters after the last `'/'`. -/
def basenameAux : List Char → List Char → List Char
  | [], acc => acc.reverse
  | c :: rest, acc =>
    if c = '/' then basenameAux rest [] else basenameAux rest (c :: acc)

/-- Embeds `os.path.basename`, on POSIX paths. -/
def basename (p : String) : String :=
  String.mk (basenameAux p.data [])

/-- Python's `str.startswith`: `strStartsWith s pre` is true when the
characters of `pre` are an initial segment of those of `s`.  (The
core-library `String.startsWith` is byte-position based and is avoided
so that every definition here evaluates by kernel reduction.) -/
def listIsInit {α : Type} [DecidableEq α] : List α → List α → Bool
  | [], _ => true
  | _ :: _, [] => false
  | a :: as, b :: bs => decide (a = b) && listIsInit as bs

def strStartsWith (s pre : String) : Bool :=
  listIsInit pre.data s.data

/-! ## Chunked reading -/

/-- Concatenation of a list of lists (byte chunks, event runs). -/
def catLists {α : Type} : List (List α) → List α
  | [] => []
  | l :: ls => l ++ catLists ls


/-- Fuelled worker for `chunksOf`; the fuel is the byte count, enough
because every step consumes at least one byte when `1 ≤ c`. -/
def chunksOfAux (c : Nat) : Nat → Bytes → List Bytes
  | 0, _ => []
  | _ + 1, [] => []
  | fuel + 1, x :: xs => (x :: xs).take c :: chunksOfAux c fuel ((x :: xs).drop c)

/-- The successive chunks a loop of `f.read(c)` calls returns for a file
with content `b` (the last chunk may be short; no empty chunks). -/
def chunksOf (c : Nat) (b : Bytes) : List Bytes :=
  chunksOfAux c b.length b


/-! ## Cancellation schedule -/

/-- The asynchronous `is_cancelled` flag, abstracted by the index of the
first read that observes it set (`none`: never cancelled).  Reads are
numbered globally in program order. -/
structure Sched where
  cancelAt : Option Nat
deriving DecidableEq, Repr

/-- The value the `n`-th read of `self.is_cancelled` observes. -/
def Sched.flag (s : Sched) (n : Nat) : Bool :=
  match s.cancelAt with
  | none => false
  | some k => decide (k ≤ n)

/-- A schedule on which cancellation is never requested. -/
def schedNone : Sched := ⟨none⟩


/-! ## `TransferWorker._copy_file_with_progress` (workers.py 353-380) -/

/-- File-open events, in program order. `openWrite p a`: `a = true` for
append mode (`'ab'`), `a = false` for truncating mode (`'wb'`). -/
inductive Ev where
  | openRead (p : String)
  | openWrite (p : String) (append : Bool)
deriving DecidableEq, Repr

/-- The constant `CHUNK_SIZE = 4 * 1024 * 1024` of `TransferWorker`. -/
def CHUNK_SIZE : Nat := 4 * 1024 * 1024

/-- The copy loop of `_copy_file_with_progress`: before each `read`, the
`is_cancelled` flag is read once (the pause poll is skipped, see module
comment); an observed cancellation raises `InterruptedError` with the
bytes written so far on disk.  Returns (destination content, next read
index, cancelled?). -/
def copyLoop (sched : Sched) : List Bytes → Nat → Bytes → Bytes × Nat × Bool
  | [], n, acc => (acc, n + 1, sched.flag n)
  | c :: rest, n, acc =>
    if sched.flag n then (acc, n + 1, true)
    else copyLoop sched rest (n + 1) (acc ++ c)

structure CopyOut where
  fs : FS
  n : Nat
  cancelled : Bool
  events : List Ev
deriving Repr

/-- Options of a copy job (`verification_mode`, `skip_existing`,
`resume_partial`, `eject_on_completion`). -/
structure JobOpts where
  verificationMode : String
  skipExisting : Bool
  resumePartial : Bool
  ejectOnCompletion : Bool
deriving DecidableEq, Repr

/-- Embeds `TransferWorker._copy_file_with_progress(src, dst)`: resume (append
mode plus a seek of the source reader) exactly when `resume_partial` is
set, the destination exists and its size is strictly between 0 and the
source size; otherwise truncate and copy from zero.  `shutil.copystat`
(metadata only) is not modelled. -/
def copyFileWithProgress (sched : Sched) (opts : JobOpts) (fs : FS) (n : Nat)
    (src dst : String) : CopyOut :=
  let srcB := (fsLookup fs src).getD []
  let srcSize := srcB.length
  let resume := opts.resumePartial && fsExists fs dst &&
      (decide (0 < fsSize fs dst) && decide (fsSize fs dst < srcSize))
  let startPos := if resume then fsSize fs dst else 0
  let acc0 := if resume then (fsLookup fs dst).getD [] else []
  let r := copyLoop sched (chunksOf CHUNK_SIZE (srcB.drop startPos)) n acc0
  { fs := fsWrite fs dst r.1, n := r.2.1, cancelled := r.2.2,
    events := [Ev.openRead src, Ev.openWrite dst resume] }


/-! ## Per-file processing (workers.py 241-317) -/

/-- One per-destination outcome dict: `path`, `verified`, and the
`status` key, which the code leaves unset for a destination that passes
full verification (modelled by `none`). -/
structure DestInfo where
  path : String
  verified : Bool
  status : Option String
deriving DecidableEq, Repr

/-- One entry of `report_data['files']` (the claim-relevant keys). -/
structure FileInfo where
  source : String
  destinations : List DestInfo
  status : String
  checksum : String
  size : Nat
deriving DecidableEq, Repr

/-- The dispatch `hasher = xxhash.xxh64() if method == "xxHash (Fast)" else hashlib.md5()`
(TransferWorker._calculate_hash, workers.py 382-386); the digest of a
chunked read is the digest of the whole content. -/
def calcHash (xxh md5 : Bytes → String) (method : String) (b : Bytes) : String :=
  if method = "xxHash (Fast)" then xxh b else md5 b

/-- Embeds `TransferWorker._calculate_hash(file_path, method)`. -/
def calculateHash (xxh md5 : Bytes → String) (method : String) (fs : FS)
    (p : String) : String :=
  calcHash xxh md5 method ((fsLookup fs p).getD [])

/-- The environment a `TransferWorker` runs in: the two digest
algorithms, the cancellation schedule, the job's options and its
`checksum_method` string. -/
structure TEnv where
  xxh : Bytes → String
  md5 : Bytes → String
  sched : Sched
  opts : JobOpts
  method : String

/-- Result of the destination loop: `done` carries the accumulated
destination dicts, the `verified_all_dests` flag, the job-level error
strings, the filesystem, the next flag-read index and the open events;
`cancelled` is an `InterruptedError` escaping from the copy loop. -/
inductive DRes where
  | done (ds : List DestInfo) (vAll : Bool) (errs : List String)
      (fs : FS) (n : Nat) (evs : List Ev)
  | cancelled (ds : List DestInfo) (errs : List String)
      (fs : FS) (n : Nat) (evs : List Ev)
deriving Repr

/-- The `for dest_file_path in ...resolved_dests...` loop body of
`TransferWorker.run` (workers.py 259-304), for one source file with
digest `srcHash` (set only in full mode) and recorded size `srcSize`. -/
def destLoop (E : TEnv) (src : String) (srcHash : Option String) (srcSize : Nat) :
    List String → List DestInfo → Bool → List String → FS → Nat → List Ev → DRes
  | [], ds, vAll, errs, fs, n, evs => .done ds vAll errs fs n evs
  | dst :: rest, ds, vAll, errs, fs, n, evs =>
    let shouldSkip := E.opts.skipExisting && fsExists fs dst &&
        decide (srcSize = fsSize fs dst)
    let c :=
      if shouldSkip then (⟨fs, n, false, []⟩ : CopyOut)
      else copyFileWithProgress E.sched E.opts fs n src dst
    if c.cancelled then
      .cancelled ds errs c.fs c.n (evs ++ c.events)
    else if E.opts.verificationMode = "none" then
      destLoop E src srcHash srcSize rest
        (ds ++ [⟨dst, false, some "Unverified"⟩]) vAll errs c.fs c.n (evs ++ c.events)
    else if ¬ fsExists c.fs dst then
      destLoop E src srcHash srcSize rest
        (ds ++ [⟨dst, false, some "Missing"⟩]) false
        (errs ++ [basename src ++ ": Missing"]) c.fs c.n (evs ++ c.events)
    else if srcSize ≠ fsSize c.fs dst then
      destLoop E src srcHash srcSize rest
        (ds ++ [⟨dst, false, some "Size Mismatch"⟩]) false
        (errs ++ [basename src ++ ": Size Mismatch"]) c.fs c.n (evs ++ c.events)
    else if E.opts.verificationMode = "size" then
      destLoop E src srcHash srcSize rest
        (ds ++ [⟨dst, true, some "Verified (Size Only)"⟩]) vAll errs c.fs c.n (evs ++ c.events)
    else
      let dstHash := calculateHash E.xxh E.md5 E.method c.fs dst
      if srcHash = some dstHash then
        destLoop E src srcHash srcSize rest
          (ds ++ [⟨dst, true, none⟩]) vAll errs c.fs c.n
          (evs ++ c.events ++ [Ev.openRead dst])
      else
        destLoop E src srcHash srcSize rest
          (ds ++ [⟨dst, false, some "Verification FAILED"⟩]) false
          (errs ++ [basename src ++ ": Verification failed"]) c.fs c.n
          (evs ++ c.events ++ [Ev.openRead dst])

/-- Result of processing one source file. -/
structure PFOut where
  info : FileInfo
  errors : List String
  fs : FS
  n : Nat
  events : List Ev
deriving Repr

/-- The per-file body of `TransferWorker.run` (workers.py 247-317): in
full mode the source is hashed first (its own `open`/read pass, workers.py
253-255), the source size is recorded, each destination is copied and
verified in turn, and the terminal per-file status is assigned:
`'Verified'` when `verified_all_dests` survived, else
`'Copied (Unverified)'` in none mode, else the initial `'Failed'`.  An
`InterruptedError` from a cancelled copy is caught by the per-file
`except` (workers.py 313-317), which records the file with status
`'Error: Copy cancelled by user'` and appends the error string. -/
def processFile (E : TEnv) (fs : FS) (n : Nat) (src : String)
    (dests : List String) : PFOut :=
  let srcHash :=
    if E.opts.verificationMode = "full" then
      some (calculateHash E.xxh E.md5 E.method fs src)
    else none
  let evs0 := if E.opts.verificationMode = "full" then [Ev.openRead src] else []
  let srcSize := fsSize fs src
  match destLoop E src srcHash srcSize dests [] true [] fs n evs0 with
  | .done ds vAll errs fs' n' evs =>
    { info := { source := src, destinations := ds,
                status := if vAll then "Verified"
                          else if E.opts.verificationMode = "none" then "Copied (Unverified)"
                          else "Failed",
                checksum := srcHash.getD "", size := srcSize },
      errors := errs, fs := fs', n := n', events := evs }
  | .cancelled ds errs fs' n' evs =>
    { info := { source := src, destinations := ds,
                status := "Error: Copy cancelled by user",
                checksum := srcHash.getD "", size := srcSize },
      errors := errs ++ ["Error processing " ++ basename src ++ ": Copy cancelled by user"],
      fs := fs', n := n', events := evs }

/-! ## The job loop of `TransferWorker.run` (workers.py 211-351) -/

/-- The claim-relevant keys of `report_data`. On the cancelled early
returns (workers.py 226, 245) the `ejectable_sources_on_success` key is
absent; consumers read it with `.get(..., [])`, so it is modelled as
`[]` there. -/
structure Report where
  files : List FileInfo
  errors : List String
  status : String
  totalSize : Nat
  ejectable : List String
deriving Repr

/-- Running state of the file loop: filesystem, next flag-read index,
`report_data['files']`, `report_data['errors']`, the
`total_bytes_processed` counter, the progress emissions so far and the
open events so far. -/
structure JState where
  fs : FS
  n : Nat
  files : List FileInfo
  errors : List String
  total : Nat
  emits : List Nat
  events : List Ev
deriving Repr

/-- One iteration of the file loop after the boundary cancellation check
passed (workers.py 247-328): process the file, add its size to
`total_bytes_processed` exactly when its status is `'Verified'`
(workers.py 319-320), and emit the cumulative counter (workers.py 328). -/
def stepFile (E : TEnv) (t : String × List String) (st : JState) : JState :=
  let r := processFile E st.fs st.n t.1 t.2
  let total' := st.total + (if r.info.status = "Verified" then r.info.size else 0)
  { fs := r.fs, n := r.n, files := st.files ++ [r.info],
    errors := st.errors ++ r.errors, total := total',
    emits := st.emits ++ [total'], events := st.events ++ r.events }

/-- The `for i, (source_file_path, ...) in enumerate(files_to_process)`
loop (workers.py 241-328).  Each iteration first reads the cancellation
flag at the file boundary (workers.py 245; the pause poll is skipped):
if set, the job early-returns with status `'Cancelled'` (`true` in the
second component). -/
def runLoop (E : TEnv) : List (String × List String) → JState → JState × Bool
  | [], st => (st, false)
  | t :: rest, st =>
    if E.sched.flag st.n then ({ st with n := st.n + 1 }, true)
    else runLoop E rest (stepFile E t { st with n := st.n + 1 })

/-- The directory walk (workers.py 222-227): one cancellation-flag read
per discovered file; returns the next flag index and whether the walk
observed cancellation. -/
def walkPhase (sched : Sched) : List (String × List String) → Nat → Nat × Bool
  | [], n => (n, false)
  | _ :: rest, n =>
    if sched.flag n then (n + 1, true) else walkPhase sched rest (n + 1)

/-- The post-loop ejectable-source computation (workers.py 330-342):
over the distinct source roots, keep those that are mount points and for
which every report file whose source path has the root as a string
prefix has status `'Verified'`.  Python's `set(...)` iteration order is
arbitrary; distinctness is modelled by `List.dedup` and every property
proved about this list is order-independent. -/
def ejectableSources (ismount : String → Bool) (sources : List String)
    (files : List FileInfo) : List String :=
  sources.dedup.filter (fun s => ismount s &&
    files.all (fun f => !(strStartsWith f.source s) || f.status == "Verified"))

/-- The job-level exception handler and final status rewrite (workers.py
344-349): a critical exception sets status `'Failed'` and appends
`'Critical error: ...'`; then, unconditionally, a non-empty error list
rewrites the status to `'Completed with errors'`. -/
def finalizeReport (r : Report) (critical : Option String) : Report :=
  let r1 :=
    match critical with
    | some msg =>
      { r with status := "Failed", errors := r.errors ++ ["Critical error: " ++ msg] }
    | none => r
  if r1.errors ≠ [] then { r1 with status := "Completed with errors" } else r1

/-- What `TransferWorker.run` produces: the emitted report, the job-level
byte-progress emissions and the file-open events. -/
structure RunResult where
  report : Report
  emits : List Nat
  events : List Ev
deriving Repr

/-- The loop state at entry to the file loop: the two zero progress
emissions (workers.py 221, 236) have happened and `n` flag reads were
consumed by the walk. -/
def jsInit (fs : FS) (n : Nat) : JState :=
  { fs := fs, n := n, files := [], errors := [], total := 0,
    emits := [0, 0], events := [] }

/-- Embeds `TransferWorker.run` (workers.py 211-351) for a copy job whose walk
discovers `fileList` (source file with its resolved destinations, in
walk order): initial zero progress emission (line 221), walk with its
per-file cancellation checks (222-227), total-size computation (229-234),
second zero emission (line 236), the file loop, the ejectable-source
computation (330-342) and the finalization rewrite (344-349).  The two
cancelled paths return their report without the finalization rewrite. -/
def runJob (E : TEnv) (sources : List String) (ismount : String → Bool)
    (fileList : List (String × List String)) (fs : FS)
    (critical : Option String) : RunResult :=
  let w := walkPhase E.sched fileList 0
  if w.2 then
    { report := { files := [], errors := [], status := "Cancelled",
                  totalSize := 0, ejectable := [] },
      emits := [0], events := [] }
  else
    let totalSize := (fileList.map (fun t => fsSize fs t.1)).sum
    let r := runLoop E fileList (jsInit fs w.1)
    if r.2 then
      { report := { files := r.1.files, errors := r.1.errors,
                    status := "Cancelled", totalSize := totalSize, ejectable := [] },
        emits := r.1.emits, events := r.1.events }
    else
      let ej := if E.opts.ejectOnCompletion then
          ejectableSources ismount sources r.1.files else []
      { report := finalizeReport
          { files := r.1.files, errors := r.1.errors, status := "Completed",
            totalSize := totalSize, ejectable := ej } critical,
        emits := r.1.emits, events := r.1.events }

/-! ## `MHLVerifyWorker` (workers.py 392-502) -/

/-- One parsed manifest entry: `(relative_path, expected_hash, hash_type,
size)` as produced by `_parse_mhl` (the size is parsed but unused by
verification). -/
structure MhlEntry where
  relPath : String
  expected : String
  hashType : String
  size : Nat
deriving DecidableEq, Repr

/-- One entry of the verify report's `files` list. -/
structure VerifyRec where
  path : String
  expected : String
  hashType : String
  status : String
  actual : Option String
deriving DecidableEq, Repr

/-- The claim-relevant keys of `MHLVerifyWorker`'s `report_data`. -/
structure MhlReport where
  files : List VerifyRec
  errors : List String
  status : String
  verifiedCount : Nat
  failedCount : Nat
  missingCount : Nat
deriving DecidableEq, Repr

/-- Embeds `os.path.join(target_dir, relative_path)`, on POSIX paths. -/
def joinPath (dir rel : String) : String :=
  dir ++ "/" ++ rel

/-- The dispatch `hasher = xxhash.xxh64() if method == "xxhash64" else hashlib.md5()`
(MHLVerifyWorker._calculate_hash, workers.py 493-498). -/
def mhlCalcHash (xxh md5 : Bytes → String) (method : String) (b : Bytes) : String :=
  if method = "xxhash64" then xxh b else md5 b

/-- Per-entry classification (workers.py 430-447): `'Missing'` when the
resolved path does not exist, otherwise re-hash with the manifest's
declared algorithm: `'Verified'` on match, `'FAILED'` (recording the
actual hash) on mismatch. -/
def mhlProcessEntry (xxh md5 : Bytes → String) (fs : FS) (targetDir : String)
    (e : MhlEntry) : VerifyRec :=
  let fullPath := joinPath targetDir e.relPath
  if ¬ fsExists fs fullPath then
    { path := fullPath, expected := e.expected, hashType := e.hashType,
      status := "Missing", actual := none }
  else
    let actual := mhlCalcHash xxh md5 e.hashType ((fsLookup fs fullPath).getD [])
    if actual = e.expected then
      { path := fullPath, expected := e.expected, hashType := e.hashType,
        status := "Verified", actual := none }
    else
      { path := fullPath, expected := e.expected, hashType := e.hashType,
        status := "FAILED", actual := some actual }

/-- The entry loop (workers.py 421-453): one cancellation-flag read per
entry before processing it (the pause poll is skipped); an observed
cancellation early-returns (`true` in the last component). -/
def mhlLoop (xxh md5 : Bytes → String) (sched : Sched) (fs : FS)
    (targetDir : String) :
    List MhlEntry → Nat → List VerifyRec → List VerifyRec × Nat × Bool
  | [], n, acc => (acc, n, false)
  | e :: rest, n, acc =>
    if sched.flag n then (acc, n + 1, true)
    else mhlLoop xxh md5 sched fs targetDir rest (n + 1)
      (acc ++ [mhlProcessEntry xxh md5 fs targetDir e])

/-- The number of report entries carrying a given status; the code's
running `verified_count`/`failed_count`/`missing_count` counters always
equal this count over the entries appended so far. -/
def countStatus (s : String) (recs : List VerifyRec) : Nat :=
  (recs.filter (fun r => r.status = s)).length

/-- Embeds `MHLVerifyWorker.run` (workers.py 405-465) on an already-parsed
entry list: classify each entry, then — unless cancelled, which
early-returns with status `'Cancelled'` — apply the critical-exception
effect (status `'Failed'` plus an error string, workers.py 455-459) and
the final rewrite to `'Completed with issues'` exactly when
`failed_count + missing_count > 0` (workers.py 461-462). -/
def mhlRun (xxh md5 : Bytes → String) (sched : Sched) (fs : FS)
    (targetDir : String) (entries : List MhlEntry)
    (critical : Option String) : MhlReport :=
  let r := mhlLoop xxh md5 sched fs targetDir entries 0 []
  let v := countStatus "Verified" r.1
  let f := countStatus "FAILED" r.1
  let m := countStatus "Missing" r.1
  if r.2.2 then
    { files := r.1, errors := [], status := "Cancelled",
      verifiedCount := v, failedCount := f, missingCount := m }
  else
    let st1 :=
      match critical with
      | some msg => ("Failed", ["A critical error occurred: " ++ msg])
      | none => ("Completed", ([] : List String))
    let finalStatus := if 0 < f + m then "Completed with issues" else st1.1
    { files := r.1, errors := st1.2, status := finalStatus,
      verifiedCount := v, failedCount := f, missingCount := m }

/-! ## `JobManager` (src/job_manager.py) -/

/-- A queued job as `JobManager` sees it: its id, type tag, status,
scanned total size, and every path it references (sources and
destinations). -/
structure QJob where
  id : String
  jobType : String
  status : String
  totalSize : Nat
  refPaths : List String
deriving DecidableEq, Repr

/-- The claim-relevant `JobManager` state. -/
structure MState where
  jobQueue : List QJob
  activeJobs : List QJob
  completed : List QJob
  isRunning : Bool
  isPaused : Bool
  totalQueueSize : Nat
  totalBytesProcessed : Nat
  speedHistory : List (ℚ × ℚ)
deriving Repr

/-- Embeds `JobManager._start_available_jobs` (job_manager.py 221-255), with
fuel equal to the queue length: pop jobs while a concurrency slot is
free; a `'Cancelled'` job moves straight to the completed list, any
other popped job becomes `'Running'` and joins the active set. -/
def startAvailableJobs (maxConc : Nat) : Nat → MState → MState
  | 0, st => st
  | fuel + 1, st =>
    if st.activeJobs.length < maxConc then
      match st.jobQueue with
      | [] => st
      | j :: rest =>
        if j.status = "Cancelled" then
          startAvailableJobs maxConc fuel
            { st with jobQueue := rest, completed := st.completed ++ [j] }
        else
          startAvailableJobs maxConc fuel
            { st with
              jobQueue := rest,
              activeJobs := st.activeJobs ++ [{ j with status := "Running" }] }
    else st

/-- Embeds `JobManager.start_or_pause_queue` (job_manager.py 171-201).  The
second component is the list of blocking errors surfaced to the caller
before starting: the code surfaces none — in particular it never
consults the filesystem, which is why the ambient path-existence
predicate `pathEx` is a parameter that the body does not use.  When not
running: an empty queue is a no-op; otherwise the queue state is reset
(total size over copy jobs, zero bytes processed, cleared speed history)
and jobs are started.  When already running the call toggles pause
(timer bookkeeping not modelled). -/
def startOrPauseQueue (pathEx : String → Bool) (maxConc : Nat)
    (st : MState) : MState × List String :=
  if ¬ st.isRunning then
    if st.jobQueue = [] then (st, [])
    else
      let copySizes := (st.jobQueue.filter (fun j => j.jobType = "copy")).map QJob.totalSize
      let st1 :=
        { st with
          isRunning := true, isPaused := false,
          totalQueueSize := copySizes.sum,
          totalBytesProcessed := 0, speedHistory := [] }
      (startAvailableJobs maxConc st1.jobQueue.length st1, [])
  else
    ({ st with isPaused := !st.isPaused }, [])

/-! ## Rolling speed / ETA (job_manager.py 257-296) -/

/-- The pruning loop `while self.speed_history and current_time -
self.speed_history[0][0] > 10: popleft()` (job_manager.py 275-276). -/
def pruneHistory (now : ℚ) : List (ℚ × ℚ) → List (ℚ × ℚ)
  | [] => []
  | s :: rest => if now - s.1 > 10 then pruneHistory now rest else s :: rest

/-- Appending to the `deque(maxlen=20)` `speed_history`
(job_manager.py 43, 272): the oldest sample is discarded when full. -/
def appendSample (maxlen : Nat) (hist : List (ℚ × ℚ)) (s : ℚ × ℚ) :
    List (ℚ × ℚ) :=
  let h := hist ++ [s]
  if maxlen < h.length then h.drop (h.length - maxlen) else h

/-- The time delta between the newest and oldest retained samples. -/
def histTd (hist : List (ℚ × ℚ)) : ℚ :=
  (hist.getLastD (0, 0)).1 - (hist.headD (0, 0)).1

/-- The byte delta between the newest and oldest retained samples. -/
def histBd (hist : List (ℚ × ℚ)) : ℚ :=
  (hist.getLastD (0, 0)).2 - (hist.headD (0, 0)).2

/-- The `speed_bps` of job_manager.py 279-284: 0 with fewer than two samples
or when the time delta is not above the 0.001-second threshold. -/
def rollingSpeedBps (hist : List (ℚ × ℚ)) : ℚ :=
  if 1 < hist.length then
    if histTd hist > 1 / 1000 then histBd hist / histTd hist else 0
  else 0

/-- The value `overall_speed_mbps = speed_bps / (1024 * 1024)` (job_manager.py 285). -/
def overallSpeedMBps (hist : List (ℚ × ℚ)) : ℚ :=
  rollingSpeedBps hist / (1024 * 1024)

/-- The `overall_eta_seconds` of job_manager.py 288-289: remaining bytes over
the speed when positive, else the sentinel -1. -/
def overallEtaSeconds (totalQ processed : ℚ) (mbps : ℚ) : ℚ :=
  if mbps > 0 then (totalQ - processed) / (mbps * (1024 * 1024)) else -1

/-- Lines 271-289 of `_on_worker_progress_updated` for one accepted
sample: append it, prune the window, and compute the emitted speed and
ETA. -/
def progressUpdate (hist : List (ℚ × ℚ)) (now totalBytes totalQ : ℚ) :
    List (ℚ × ℚ) × ℚ × ℚ :=
  let h := pruneHistory now (appendSample 20 hist (now, totalBytes))
  (h, overallSpeedMBps h,
    overallEtaSeconds totalQ totalBytes (overallSpeedMBps h))

/-! ## Specification-side definitions and proof auxiliaries -/

/-- Sum of the sizes of the report files whose terminal status is
`'Verified'`. -/
def sumVerifiedSizes (files : List FileInfo) : Nat :=
  (files.map (fun f => if f.status = "Verified" then f.size else 0)).sum

/-- How many times path `p` was opened for reading. -/
def countOpenRead (p : String) (evs : List Ev) : Nat :=
  (evs.filter (fun e => e = Ev.openRead p)).length

/-- The flag-read index at which the file-boundary cancellation check of
the *last* file of `tasks` happens, along the run of `runLoop` from
`st` (same recursion as `runLoop`; meaningful for nonempty `tasks`). -/
def lastEntryIdx (E : TEnv) : List (String × List String) → JState → Nat
  | [], st => st.n
  | [_], st => st.n
  | t :: t' :: rest, st =>
    lastEntryIdx E (t' :: rest) (stepFile E t { st with n := st.n + 1 })

/-- The speed the spec describes (refinement-comparison definition,
written from the spec's words, not from the code): Δbytes/Δtime over the
retained samples whenever there are at least 2 samples and the time
delta is positive; 0 otherwise. -/
def claimSpeedBps (hist : List (ℚ × ℚ)) : ℚ :=
  if 1 < hist.length ∧ 0 < histTd hist then histBd hist / histTd hist else 0

/-- The claim's pre-flight validation property (refinement-comparison
definition, written from the spec's words, not from the code): starting
a non-empty queue with some referenced path missing must not start the
queue, must start no job, and must surface a non-empty list of blocking
errors. -/
def startValidatesPathsClaim : Prop :=
  ∀ (pathEx : String → Bool) (maxConc : Nat) (st : MState),
    st.isRunning = false → st.jobQueue ≠ [] →
    (∃ j ∈ st.jobQueue, ∃ p ∈ j.refPaths, pathEx p = false) →
    (startOrPauseQueue pathEx maxConc st).1.isRunning = false ∧
    (startOrPauseQueue pathEx maxConc st).1.activeJobs = st.activeJobs ∧
    (startOrPauseQueue pathEx maxConc st).2 ≠ []

/-! ## Shared concrete instances for witnesses and counterexamples -/

/-- A constant digest function: both supported algorithms are opaque to
every claim, so any concrete instantiation works. -/
def hashH : Bytes → String := fun _ => "h"

/-- Options: full verification, no skip/resume/eject. -/
def optsFull : JobOpts :=
  { verificationMode := "full", skipExisting := false,
    resumePartial := false, ejectOnCompletion := false }

/-- Options: verification mode none, no skip/resume/eject. -/
def optsNone : JobOpts :=
  { verificationMode := "none", skipExisting := false,
    resumePartial := false, ejectOnCompletion := false }

/-- Full-verification environment, never cancelled. -/
def envFull : TEnv :=
  { xxh := hashH, md5 := hashH, sched := schedNone, opts := optsFull,
    method := "xxHash (Fast)" }

/-- None-verification environment, never cancelled. -/
def envNone : TEnv :=
  { xxh := hashH, md5 := hashH, sched := schedNone, opts := optsNone,
    method := "xxHash (Fast)" }

/-- An empty idle `JobManager` state except for one queued copy job that
references the single path `"gone"`. -/
def stGone : MState :=
  { jobQueue := [{ id := "J1", jobType := "copy", status := "Queued",
                   totalSize := 5, refPaths := ["gone"] }],
    activeJobs := [], completed := [], isRunning := false, isPaused := false,
    totalQueueSize := 0, totalBytesProcessed := 0, speedHistory := [] }

/-- Environment whose cancellation is first observed at flag read 1 —
the file-boundary check of the first (and last) file of a one-file job. -/
def envCancelBoundary : TEnv :=
  { xxh := hashH, md5 := hashH, sched := ⟨some 1⟩, opts := optsNone,
    method := "xxHash (Fast)" }

/-- Environment whose cancellation is first observed at flag read 2 —
the first chunk-boundary check inside the copy of the only file of a
one-file job. -/
def envCancelChunk : TEnv :=
  { xxh := hashH, md5 := hashH, sched := ⟨some 2⟩, opts := optsNone,
    method := "xxHash (Fast)" }

/-- Options with eject-on-completion set, full verification. -/
def optsEject : JobOpts :=
  { verificationMode := "full", skipExisting := false,
    resumePartial := false, ejectOnCompletion := true }

/-- Full-verification environment with eject-on-completion, never
cancelled. -/
def envEject : TEnv :=
  { xxh := hashH, md5 := hashH, sched := schedNone, opts := optsEject,
    method := "xxHash (Fast)" }

/-- A three-entry manifest, all expecting digest `"h"` (xxhash64). -/
def mhlEntriesW : List MhlEntry :=
  [{ relPath := "a", expected := "h", hashType := "xxhash64", size := 1 },
   { relPath := "b", expected := "h", hashType := "xxhash64", size := 1 },
   { relPath := "c", expected := "h", hashType := "xxhash64", size := 1 }]

/-- Target tree for `mhlEntriesW` in which file `"t/b"` was deleted. -/
def mhlFsW : FS := [("t/a", [1]), ("t/c", [2])]

/-! ## Supporting lemmas -/

@[simp] theorem fsLookup_fsWrite (fs : FS) (p q : String) (b : Bytes) :
    fsLookup (fsWrite fs p b) q = if q = p then some b else fsLookup fs q := rfl

@[simp] theorem catLists_nil {α : Type} : catLists ([] : List (List α)) = [] := rfl

@[simp] theorem catLists_cons {α : Type} (l : List α) (ls : List (List α)) :
    catLists (l :: ls) = l ++ catLists ls := rfl

theorem catLists_chunksOfAux (c : Nat) (hc : 1 ≤ c) :
    ∀ fuel b, b.length ≤ fuel → catLists (chunksOfAux c fuel b) = b := by
  intro fuel
  induction fuel with
  | zero =>
    intro b hb
    have : b = [] := List.eq_nil_of_length_eq_zero (Nat.le_zero.mp hb)
    simp [this, chunksOfAux]
  | succ n ih =>
    intro b hb
    match b with
    | [] => simp [chunksOfAux]
    | x :: xs =>
      have hlen : ((x :: xs).drop c).length ≤ n := by
        have : (x :: xs).length - c ≤ n := by
          have h1 : (x :: xs).length ≤ n + 1 := hb
          omega
        simpa [List.length_drop] using this
      simp [chunksOfAux, ih _ hlen]

theorem catLists_chunksOf (c : Nat) (hc : 1 ≤ c) (b : Bytes) :
    catLists (chunksOf c b) = b :=
  catLists_chunksOfAux c hc b.length b (Nat.le_refl _)

@[simp] theorem schedNone_flag (n : Nat) : schedNone.flag n = false := rfl

/-- On a never-cancelling schedule the copy loop writes every chunk. -/
theorem copyLoop_schedNone (chunks : List Bytes) :
    ∀ n acc, copyLoop schedNone chunks n acc =
      (acc ++ catLists chunks, n + chunks.length + 1, false) := by
  induction chunks with
  | nil => intro n acc; simp [copyLoop]
  | cons c rest ih =>
    intro n acc
    simp [copyLoop, ih, List.append_assoc]
    omega

/-- Evaluating `_copy_file_with_progress`, never cancelled, resume case: the
destination exists with size strictly between 0 and the source size and
`resume_partial` is set, so the destination is opened in append mode,
the source reader is seeked past the existing bytes, and the final
content is the old content followed by the source's remaining bytes. -/
theorem copyFileWithProgress_resume (opts : JobOpts) (fs : FS) (n : Nat)
    (src dst : String) (srcB old : Bytes)
    (hR : opts.resumePartial = true)
    (hs : fsLookup fs src = some srcB)
    (hd : fsLookup fs dst = some old)
    (h0 : 0 < old.length) (h1 : old.length < srcB.length) :
    copyFileWithProgress schedNone opts fs n src dst =
      { fs := fsWrite fs dst (old ++ srcB.drop old.length),
        n := n + (chunksOf CHUNK_SIZE (srcB.drop old.length)).length + 1,
        cancelled := false,
        events := [Ev.openRead src, Ev.openWrite dst true] } := by
  have hc : (1 : Nat) ≤ CHUNK_SIZE := by norm_num [CHUNK_SIZE]
  simp [copyFileWithProgress, hs, hd, hR, fsExists, fsSize, h0, h1,
    copyLoop_schedNone, catLists_chunksOf _ hc]

/-- Evaluating `_copy_file_with_progress`, never cancelled, with an existing
destination at least as large as the source: the resume condition fails,
so the destination is truncated and rewritten from zero. -/
theorem copyFileWithProgress_overwrite (opts : JobOpts) (fs : FS) (n : Nat)
    (src dst : String) (srcB old : Bytes)
    (hs : fsLookup fs src = some srcB)
    (hd : fsLookup fs dst = some old)
    (h1 : srcB.length ≤ old.length) :
    copyFileWithProgress schedNone opts fs n src dst =
      { fs := fsWrite fs dst srcB,
        n := n + (chunksOf CHUNK_SIZE srcB).length + 1,
        cancelled := false,
        events := [Ev.openRead src, Ev.openWrite dst false] } := by
  have hc : (1 : Nat) ≤ CHUNK_SIZE := by norm_num [CHUNK_SIZE]
  have h1' : ¬ old.length < srcB.length := by omega
  simp [copyFileWithProgress, hs, hd, fsExists, fsSize, h1',
    copyLoop_schedNone, catLists_chunksOf _ hc]

/-- Evaluating `_copy_file_with_progress`, never cancelled, with `resume_partial`
unset: plain truncating copy of the whole source. -/
theorem copyFileWithProgress_noresume (opts : JobOpts) (fs : FS) (n : Nat)
    (src dst : String) (hr : opts.resumePartial = false) :
    copyFileWithProgress schedNone opts fs n src dst =
      { fs := fsWrite fs dst ((fsLookup fs src).getD []),
        n := n + (chunksOf CHUNK_SIZE ((fsLookup fs src).getD [])).length + 1,
        cancelled := false,
        events := [Ev.openRead src, Ev.openWrite dst false] } := by
  have hc : (1 : Nat) ≤ CHUNK_SIZE := by norm_num [CHUNK_SIZE]
  simp [copyFileWithProgress, hr, copyLoop_schedNone, catLists_chunksOf _ hc]

/-- C1: in verification mode `none`, `verified_all_dests` is never
cleared (the per-destination loop appends `'Unverified'` records and
`continue`s before any check), so the per-file status becomes
`'Verified'` even though every destination record says unverified — the
`'Copied (Unverified)'` branch of workers.py 308-309 is unreachable.
Evaluation of the embedded code on a one-file, one-destination job in
mode `none`. -/
theorem c1_none_mode_file_marked_verified :
    envNone.opts.verificationMode = "none" ∧
    (processFile envNone [("s", [1, 2])] 0 "s" ["d"]).info.status = "Verified" ∧
    (processFile envNone [("s", [1, 2])] 0 "s" ["d"]).info.status ≠ "Copied (Unverified)" ∧
    (processFile envNone [("s", [1, 2])] 0 "s" ["d"]).info.destinations =
      [{ path := "d", verified := false, status := some "Unverified" }] :=
  ⟨by decide, by decide, by decide, by decide⟩

/-- C5 counterexample: with `resume_partial` set and an existing
destination of size 1 whose byte differs from the source's first byte,
the copy appends the source's tail to the corrupt prefix, so the final
destination is NOT byte-identical to the source (the claim asserts
byte-identity for every destination with size strictly between 0 and the
source size). -/
theorem c5_resume_corrupt_partial_not_identical :
    fsLookup (copyFileWithProgress schedNone
        { verificationMode := "full", skipExisting := false,
          resumePartial := true, ejectOnCompletion := false }
        [("s", [0, 1]), ("d", [5])] 0 "s" "d").fs "d" = some [5, 1] ∧
    fsLookup [("s", [0, 1]), ("d", [5])] "s" = some [0, 1] ∧
    ([5, 1] : Bytes) ≠ [0, 1] :=
  ⟨by decide, by decide, by decide⟩

/-- C5 (amended): with `resumePartial` enabled and a destination of size
strictly between 0 and the source size, the destination is opened in
append mode and the source reader seeked to that offset, so the existing
bytes are never rewritten — the final content is the existing bytes
followed by the source's remaining bytes, hence byte-identical to the
source exactly when the existing content is a prefix of the source; an
existing destination at least as large as the source is overwritten from
zero. -/
theorem c5_resume_append_semantics (opts : JobOpts) (fs : FS) (n : Nat)
    (src dst : String) (srcB old : Bytes)
    (hR : opts.resumePartial = true)
    (hs : fsLookup fs src = some srcB)
    (hd : fsLookup fs dst = some old) :
    (0 < old.length → old.length < srcB.length →
      (copyFileWithProgress schedNone opts fs n src dst).events =
        [Ev.openRead src, Ev.openWrite dst true] ∧
      fsLookup (copyFileWithProgress schedNone opts fs n src dst).fs dst =
        some (old ++ srcB.drop old.length) ∧
      (srcB.take old.length = old →
        fsLookup (copyFileWithProgress schedNone opts fs n src dst).fs dst = some srcB)) ∧
    (srcB.length ≤ old.length →
      (copyFileWithProgress schedNone opts fs n src dst).events =
        [Ev.openRead src, Ev.openWrite dst false] ∧
      fsLookup (copyFileWithProgress schedNone opts fs n src dst).fs dst = some srcB) := by
  constructor
  · intro h0 h1
    rw [copyFileWithProgress_resume opts fs n src dst srcB old hR hs hd h0 h1]
    refine ⟨rfl, by simp, ?_⟩
    intro hp
    conv_rhs => rw [← List.take_append_drop old.length srcB]
    rw [hp]
    simp
  · intro h1
    rw [copyFileWithProgress_overwrite opts fs n src dst srcB old hs hd h1]
    exact ⟨rfl, by simp⟩

/-- Witness for `c5_resume_append_semantics`: resuming a true half
prefix reproduces the source exactly. -/
theorem c5_resume_append_semantics_witness :
    fsLookup (copyFileWithProgress schedNone
        { verificationMode := "full", skipExisting := false,
          resumePartial := true, ejectOnCompletion := false }
        [("s", [9, 8, 7, 6]), ("d", [9, 8])] 0 "s" "d").fs "d" = some [9, 8, 7, 6] :=
  ((c5_resume_append_semantics _ _ 0 "s" "d" [9, 8, 7, 6] [9, 8]
    rfl (by decide) (by decide)).1 (by decide) (by decide)).2.2 (by decide)

/-- The pruning loop only drops samples from the front. -/
theorem pruneHistory_suffix (now : ℚ) :
    ∀ hist, pruneHistory now hist <:+ hist := by
  intro hist
  induction hist with
  | nil => simp [pruneHistory]
  | cons s rest ih =>
    by_cases h : now - s.1 > 10
    · simpa [pruneHistory, h] using ih.trans (List.suffix_cons s rest)
    · simp [pruneHistory, h]

/-- The oldest retained sample, if any, is within the 10-second window. -/
theorem pruneHistory_head (now : ℚ) :
    ∀ hist s, (pruneHistory now hist).head? = some s → now - s.1 ≤ 10 := by
  intro hist
  induction hist with
  | nil => simp [pruneHistory]
  | cons a rest ih =>
    intro s hs
    by_cases h : now - a.1 > 10
    · exact ih s (by simpa [pruneHistory, h] using hs)
    · have : a = s := by simpa [pruneHistory, h] using hs
      subst this
      linarith [not_lt.mp h]

/-- C7 (amended): the rolling aggregator's speed is Δbytes/Δtime over
the retained samples exactly when there are at least 2 samples AND the
time delta exceeds the 0.001-second threshold (not merely positive), and
0 otherwise; the emitted ETA equals remaining bytes over that speed when
the speed is positive and the sentinel -1 otherwise; pruning retains a
suffix of the samples whose oldest element is within the 10-second
window. -/
theorem c7_rolling_speed_eta_formulas (hist : List (ℚ × ℚ))
    (totalQ processed now : ℚ) :
    rollingSpeedBps hist =
      (if 1 < hist.length ∧ 1 / 1000 < histTd hist
       then histBd hist / histTd hist else 0) ∧
    overallEtaSeconds totalQ processed (overallSpeedMBps hist) =
      (if 0 < rollingSpeedBps hist
       then (totalQ - processed) / rollingSpeedBps hist else -1) ∧
    pruneHistory now hist <:+ hist ∧
    (∀ s, (pruneHistory now hist).head? = some s → now - s.1 ≤ 10) := by
  have hK : (0 : ℚ) < 1024 * 1024 := by norm_num
  refine ⟨?_, ?_, pruneHistory_suffix now hist, pruneHistory_head now hist⟩
  · by_cases h1 : 1 < hist.length <;>
      by_cases h2 : (1 : ℚ) / 1000 < histTd hist <;>
      simp [rollingSpeedBps, h1, h2]
  · by_cases hs : 0 < rollingSpeedBps hist
    · have hm : 0 < overallSpeedMBps hist := div_pos hs hK
      simp [overallEtaSeconds, hm, hs, overallSpeedMBps,
        div_mul_cancel₀ _ (ne_of_gt hK)]
    · have hm : ¬ 0 < overallSpeedMBps hist := by
        intro h
        have := mul_pos h hK
        rw [overallSpeedMBps, div_mul_cancel₀ _ (ne_of_gt hK)] at this
        exact hs this
      simp [overallEtaSeconds, hm, hs]

/-- C7 counterexample: two samples 0.0005 seconds apart with a 1 MiB
byte delta.  The spec's formula gives a strictly positive speed (the
time delta is positive), but the code's 0.001-second threshold reports
speed 0 and ETA -1. -/
theorem c7_subthreshold_delta_reports_zero :
    rollingSpeedBps [((0 : ℚ), (0 : ℚ)), (1 / 2000, 1048576)] = 0 ∧
    0 < claimSpeedBps [((0 : ℚ), (0 : ℚ)), (1 / 2000, 1048576)] ∧
    overallEtaSeconds 10485760 1048576
      (overallSpeedMBps [((0 : ℚ), (0 : ℚ)), (1 / 2000, 1048576)]) = -1 := by
  refine ⟨?_, ?_, ?_⟩ <;>
    norm_num [rollingSpeedBps, claimSpeedBps, overallEtaSeconds,
      overallSpeedMBps, histTd, histBd, List.getLastD]


/-- The helper `_start_available_jobs` does not touch the running flag. -/
theorem startAvailableJobs_isRunning (maxConc : Nat) :
    ∀ fuel st, (startAvailableJobs maxConc fuel st).isRunning = st.isRunning := by
  intro fuel
  induction fuel with
  | zero => intro st; rfl
  | succ f ih =>
    intro st
    by_cases h : st.activeJobs.length < maxConc
    · cases hq : st.jobQueue with
      | nil => simp [startAvailableJobs, h, hq]
      | cons j rest =>
        by_cases hc : j.status = "Cancelled" <;>
          simp [startAvailableJobs, h, hq, hc, ih]
    · simp [startAvailableJobs, h]

/-- The helper `_start_available_jobs` only appends to the active set. -/
theorem startAvailableJobs_active_extend (maxConc : Nat) :
    ∀ fuel st, ∃ ext,
      (startAvailableJobs maxConc fuel st).activeJobs = st.activeJobs ++ ext := by
  intro fuel
  induction fuel with
  | zero => intro st; exact ⟨[], by simp [startAvailableJobs]⟩
  | succ f ih =>
    intro st
    by_cases h : st.activeJobs.length < maxConc
    · cases hq : st.jobQueue with
      | nil => exact ⟨[], by simp [startAvailableJobs, h, hq]⟩
      | cons j rest =>
        by_cases hc : j.status = "Cancelled"
        · obtain ⟨ext, hext⟩ :=
            ih { st with jobQueue := rest, completed := st.completed ++ [j] }
          exact ⟨ext, by simpa [startAvailableJobs, h, hq, hc] using hext⟩
        · obtain ⟨ext, hext⟩ :=
            ih { st with
                 jobQueue := rest,
                 activeJobs := st.activeJobs ++ [{ j with status := "Running" }] }
          refine ⟨[{ j with status := "Running" }] ++ ext, ?_⟩
          have : startAvailableJobs maxConc (f + 1) st =
              startAvailableJobs maxConc f
                { st with
                  jobQueue := rest,
                  activeJobs := st.activeJobs ++ [{ j with status := "Running" }] } := by
            simp [startAvailableJobs, h, hq, hc]
          rw [this]
          simpa [List.append_assoc] using hext
    · exact ⟨[], by simp [startAvailableJobs, h]⟩

/-- C4 counterexample: with one queued copy job referencing only the
path `"gone"` and a path-existence predicate under which every path is
missing, starting the queue nonetheless sets the running flag — the
claimed fail-closed validation does not exist in
`start_or_pause_queue`. -/
theorem c4_start_without_validation : ¬ startValidatesPathsClaim := by
  intro h
  have hj := h (fun _ => false) 1 stGone rfl (by decide)
    ⟨{ id := "J1", jobType := "copy", status := "Queued", totalSize := 5,
       refPaths := ["gone"] }, by decide, "gone", by decide, rfl⟩
  have hrun : (startOrPauseQueue (fun _ => false) 1 stGone).1.isRunning = true := by
    decide
  rw [hj.1] at hrun
  exact Bool.false_ne_true hrun

/-- With a free slot, `_start_available_jobs` starts the head of the
queue as `'Running'` when it is not cancelled. -/
theorem startAvailableJobs_mem_head (maxConc fuel : Nat) (st : MState)
    (j : QJob) (rest : List QJob)
    (hq : st.jobQueue = j :: rest) (hj : j.status ≠ "Cancelled")
    (hcond : st.activeJobs.length < maxConc) :
    { j with status := "Running" } ∈
      (startAvailableJobs maxConc (fuel + 1) st).activeJobs := by
  have hunf : startAvailableJobs maxConc (fuel + 1) st =
      startAvailableJobs maxConc fuel
        { st with
          jobQueue := rest,
          activeJobs := st.activeJobs ++ [{ j with status := "Running" }] } := by
    simp [startAvailableJobs, hcond, hq, hj]
  rw [hunf]
  obtain ⟨ext, hext⟩ := startAvailableJobs_active_extend maxConc fuel _
  rw [hext]
  simp

/-- Unfolding `start_or_pause_queue` on an idle, non-empty queue. -/
theorem startOrPauseQueue_start_eq (pathEx : String → Bool) (maxConc : Nat)
    (st : MState) (h1 : st.isRunning = false) (hne : st.jobQueue ≠ []) :
    startOrPauseQueue pathEx maxConc st =
      (startAvailableJobs maxConc st.jobQueue.length
        { st with
          isRunning := true, isPaused := false,
          totalQueueSize :=
            ((st.jobQueue.filter (fun q => q.jobType = "copy")).map QJob.totalSize).sum,
          totalBytesProcessed := 0, speedHistory := [] }, []) := by
  simp [startOrPauseQueue, h1, hne]

/-- C4 (amended): starting a non-empty idle queue performs no
path-existence validation at all: the result does not depend on the
ambient path-existence predicate, no blocking error is surfaced, the
queue transitions to running, and the first queued job (when not
cancelled) is started regardless of whether any referenced path
exists. -/
theorem c4_start_ignores_path_existence (pathEx pathEx' : String → Bool)
    (maxConc : Nat) (st : MState) (j : QJob) (rest : List QJob)
    (h1 : st.isRunning = false) (hq : st.jobQueue = j :: rest)
    (hj : j.status ≠ "Cancelled") (ha : st.activeJobs = []) (hm : 1 ≤ maxConc) :
    (startOrPauseQueue pathEx maxConc st).1.isRunning = true ∧
    (startOrPauseQueue pathEx maxConc st).2 = [] ∧
    { j with status := "Running" } ∈ (startOrPauseQueue pathEx maxConc st).1.activeJobs ∧
    startOrPauseQueue pathEx maxConc st = startOrPauseQueue pathEx' maxConc st := by
  have hne : st.jobQueue ≠ [] := by simp [hq]
  rw [startOrPauseQueue_start_eq pathEx maxConc st h1 hne]
  refine ⟨?_, rfl, ?_, ?_⟩
  · rw [startAvailableJobs_isRunning]
  · have hq1 : st.jobQueue.length = rest.length + 1 := by simp [hq]
    rw [hq1]
    exact startAvailableJobs_mem_head maxConc rest.length _ j rest
      (by simpa using hq) hj (by simp [ha]; omega)
  · rw [startOrPauseQueue_start_eq pathEx' maxConc st h1 hne]

/-- Witness for `c4_start_ignores_path_existence`: the concrete
one-job queue whose only referenced path is missing starts anyway and
surfaces no error. -/
theorem c4_start_ignores_path_existence_witness :
    (startOrPauseQueue (fun _ => false) 1 stGone).1.isRunning = true ∧
    (startOrPauseQueue (fun _ => false) 1 stGone).2 = [] := by
  have h := c4_start_ignores_path_existence (fun _ => false) (fun _ => true) 1 stGone
    { id := "J1", jobType := "copy", status := "Queued", totalSize := 5,
      refPaths := ["gone"] } []
    rfl rfl (by decide) rfl (by decide)
  exact ⟨h.1, h.2.1⟩

/-- In full mode with no skip/resume and no cancellation, the
destination loop re-opens the source once per destination, writes each
destination in truncating mode, re-opens each destination for the
verification hash, and records every destination as verified. -/
theorem destLoop_full_trace (E : TEnv)
    (hm : E.opts.verificationMode = "full") (hsk : E.opts.skipExisting = false)
    (hr : E.opts.resumePartial = false) (hs : E.sched = schedNone)
    (src : String) (sb : Bytes) :
    ∀ dests ds vAll errs fs n evs, src ∉ dests → (fsLookup fs src).getD [] = sb →
      ∃ fs' n',
        destLoop E src (some (calcHash E.xxh E.md5 E.method sb)) sb.length
            dests ds vAll errs fs n evs =
          DRes.done (ds ++ dests.map (fun d => ⟨d, true, none⟩)) vAll errs fs' n'
            (evs ++ catLists (dests.map
              (fun d => [Ev.openRead src, Ev.openWrite d false, Ev.openRead d]))) := by
  intro dests
  induction dests with
  | nil =>
    intro ds vAll errs fs n evs _ _
    exact ⟨fs, n, by simp [destLoop]⟩
  | cons d rest ih =>
    intro ds vAll errs fs n evs hnin hsb
    have hnd : src ≠ d := fun e => hnin (by simp [e])
    have hnin' : src ∉ rest := fun e => hnin (by simp [e])
    obtain ⟨fs', n', hrec⟩ := ih (ds ++ [⟨d, true, none⟩]) vAll errs
      (fsWrite fs d sb) (n + (chunksOf CHUNK_SIZE sb).length + 1)
      (evs ++ [Ev.openRead src, Ev.openWrite d false, Ev.openRead d])
      hnin' (by simp [hnd, hsb])
    refine ⟨fs', n', ?_⟩
    have hdd : fsLookup (fsWrite fs d sb) d = some sb := by simp
    simp only [destLoop, hsk, hs, Bool.false_and,
      copyFileWithProgress_noresume E.opts fs n src d hr, hsb]
    simp only [List.append_assoc] at hrec
    simp [hm, hdd, fsExists, fsSize, calculateHash,
      List.append_assoc, hrec]

/-- C2 (amended): with Full verification (no skip/resume, no
cancellation, and the source not among its own destinations) a file is
processed in multiple passes, not one: the source is opened and read
once in full to compute the recorded checksum, then re-opened and
re-read once per destination to copy (each destination opened in
truncating mode just before its own copy pass, not all before one read
loop), and each destination is re-opened and re-read for verification;
the recorded source checksum is the digest of the hashing pass, computed
before any destination bytes are written. -/
theorem c2_full_mode_multipass_trace (E : TEnv) (fs : FS) (n : Nat)
    (src : String) (dests : List String)
    (hm : E.opts.verificationMode = "full") (hsk : E.opts.skipExisting = false)
    (hr : E.opts.resumePartial = false) (hs : E.sched = schedNone)
    (hnin : src ∉ dests) :
    (processFile E fs n src dests).events =
      Ev.openRead src :: catLists (dests.map
        (fun d => [Ev.openRead src, Ev.openWrite d false, Ev.openRead d])) ∧
    (processFile E fs n src dests).info.checksum =
      calcHash E.xxh E.md5 E.method ((fsLookup fs src).getD []) ∧
    (processFile E fs n src dests).info.status = "Verified" := by
  obtain ⟨fs', n', hrec⟩ := destLoop_full_trace E hm hsk hr hs src
    ((fsLookup fs src).getD []) dests [] true [] fs n [Ev.openRead src]
    hnin rfl
  have hsize : fsSize fs src = ((fsLookup fs src).getD []).length := rfl
  simp only [processFile, hm, calculateHash, hsize, if_true]
  rw [hrec]
  simp

/-- Witness for `c2_full_mode_multipass_trace`: one file, one
destination, full verification. -/
theorem c2_full_mode_multipass_trace_witness :
    (processFile envFull [("s", [1])] 0 "s" ["d"]).events =
      [Ev.openRead "s", Ev.openRead "s", Ev.openWrite "d" false, Ev.openRead "d"] ∧
    (processFile envFull [("s", [1])] 0 "s" ["d"]).info.checksum = "h" ∧
    (processFile envFull [("s", [1])] 0 "s" ["d"]).info.status = "Verified" := by
  have h := c2_full_mode_multipass_trace envFull [("s", [1])] 0 "s" ["d"]
    rfl rfl rfl rfl (by decide)
  refine ⟨?_, ?_, h.2.2⟩
  · rw [h.1]; rfl
  · rw [h.2.1]; rfl

/-- C2 counterexample: for a one-file job with two destinations under
Full verification, the source file is opened three times (one hashing
pass plus one copy pass per destination), not once as the claim
states. -/
theorem c2_source_not_opened_once :
    countOpenRead "s" (processFile envFull [("s", [1])] 0 "s" ["d1", "d2"]).events = 3 ∧
    (3 : Nat) ≠ 1 :=
  ⟨by decide, by decide⟩

/-- The walk does not observe cancellation when the request index lies
at or beyond its last check. -/
theorem walkPhase_complete (sched : Sched) (k : Nat)
    (hE : sched.cancelAt = some k) :
    ∀ (l : List (String × List String)) (n : Nat), n + l.length ≤ k →
      walkPhase sched l n = (n + l.length, false) := by
  intro l
  induction l with
  | nil => intro n _; simp [walkPhase]
  | cons t rest ih =>
    intro n hn
    have hf : sched.flag n = false := by
      simp only [Sched.flag, hE, decide_eq_false_iff_not]
      simp at hn
      omega
    have := ih (n + 1) (by simp at hn ⊢; omega)
    simp [walkPhase, hf, this]
    omega

/-- The walk observes cancellation when the request index falls among
its checks. -/
theorem walkPhase_observes (sched : Sched) (k : Nat)
    (hE : sched.cancelAt = some k) :
    ∀ (l : List (String × List String)) (n : Nat), n ≤ k → k < n + l.length →
      (walkPhase sched l n).2 = true := by
  intro l
  induction l with
  | nil => intro n hn hn'; simp at hn'; omega
  | cons t rest ih =>
    intro n hn hn'
    by_cases hf : sched.flag n
    · simp [walkPhase, hf]
    · have hkn : ¬ k ≤ n := by
        simp only [Sched.flag, hE, decide_eq_true_eq] at hf
        exact hf
      have := ih (n + 1) (by omega) (by simp at hn' ⊢; omega)
      simp [walkPhase, hf, this]

/-- If cancellation is requested no later than the boundary check of the
last file, some boundary check of the file loop observes it and the loop
early-returns. -/
theorem runLoop_cancelled_of_le_lastEntryIdx (E : TEnv) (k : Nat)
    (hE : E.sched.cancelAt = some k) :
    ∀ (tasks : List (String × List String)) (st : JState), tasks ≠ [] →
      k ≤ lastEntryIdx E tasks st → (runLoop E tasks st).2 = true := by
  intro tasks
  induction tasks with
  | nil => intro st h; exact absurd rfl h
  | cons t rest ih =>
    intro st _ hk
    cases rest with
    | nil =>
      have hf : E.sched.flag st.n = true := by
        simp only [Sched.flag, hE, decide_eq_true_eq]
        simpa [lastEntryIdx] using hk
      simp [runLoop, hf]
    | cons t' rest' =>
      by_cases hf : E.sched.flag st.n
      · simp [runLoop, hf]
      · have hk' : k ≤ lastEntryIdx E (t' :: rest')
            (stepFile E t { st with n := st.n + 1 }) := by
          simpa [lastEntryIdx] using hk
        simp only [runLoop, hf, if_false, Bool.false_eq_true]
        exact ih _ (by simp) hk'

/-- C3 (amended): whenever cancellation is requested no later than the
file-boundary check of the job's last file — in particular at any walk
check, any file boundary, or any chunk boundary inside the copy of a
non-last file — the job's emitted terminal status is `'Cancelled'`. -/
theorem c3_cancel_by_last_file_boundary_cancelled (E : TEnv)
    (sources : List String) (ismount : String → Bool)
    (fileList : List (String × List String)) (fs : FS)
    (critical : Option String) (k : Nat)
    (hE : E.sched.cancelAt = some k) (hne : fileList ≠ [])
    (hk : k ≤ lastEntryIdx E fileList (jsInit fs fileList.length)) :
    (runJob E sources ismount fileList fs critical).report.status = "Cancelled" := by
  by_cases hlt : k < fileList.length
  · have hw : (walkPhase E.sched fileList 0).2 = true :=
      walkPhase_observes E.sched k hE fileList 0 (Nat.zero_le k) (by simpa using hlt)
    simp [runJob, hw]
  · push_neg at hlt
    have hw : walkPhase E.sched fileList 0 = (fileList.length, false) := by
      simpa using walkPhase_complete E.sched k hE fileList 0 (by simpa using hlt)
    have hloop : (runLoop E fileList (jsInit fs fileList.length)).2 = true :=
      runLoop_cancelled_of_le_lastEntryIdx E k hE fileList _ hne hk
    simp [runJob, hw, hloop]

/-- Witness for `c3_cancel_by_last_file_boundary_cancelled`: a one-file
job whose cancellation is observed at the file-boundary check ends
`'Cancelled'`. -/
theorem c3_cancel_by_last_file_boundary_cancelled_witness :
    (runJob envCancelBoundary ["s"] (fun _ => false) [("s", ["d"])]
      [("s", [7])] none).report.status = "Cancelled" :=
  c3_cancel_by_last_file_boundary_cancelled envCancelBoundary ["s"]
    (fun _ => false) [("s", ["d"])] [("s", [7])] none 1 rfl
    (by decide) (by decide)

/-- C3 counterexample: cancellation observed at a chunk boundary inside
the copy of the job's *last* file is swallowed by the per-file `except`
(the `InterruptedError` is recorded as a per-file error) and no later
boundary check exists, so the job ends `'Completed with errors'`, not
`'Cancelled'` — the claim requires `'Cancelled'` for cancellation at any
chunk boundary, including during the last file. -/
theorem c3_cancel_during_last_file_not_cancelled :
    envCancelChunk.sched.cancelAt = some 2 ∧
    (runJob envCancelChunk ["s"] (fun _ => false) [("s", ["d"])]
      [("s", [7])] none).report.errors =
      ["Error processing s: Copy cancelled by user"] ∧
    (runJob envCancelChunk ["s"] (fun _ => false) [("s", ["d"])]
      [("s", [7])] none).report.status = "Completed with errors" ∧
    (runJob envCancelChunk ["s"] (fun _ => false) [("s", ["d"])]
      [("s", [7])] none).report.status ≠ "Cancelled" :=
  ⟨rfl, by decide, by decide, by decide⟩

theorem sumVerifiedSizes_append (l1 l2 : List FileInfo) :
    sumVerifiedSizes (l1 ++ l2) = sumVerifiedSizes l1 + sumVerifiedSizes l2 := by
  simp [sumVerifiedSizes]

/-- Loop invariant for the byte-progress emissions: the counter always
equals the verified-size sum of the processed files, the emission list
is monotone, and its last entry is the counter. -/
theorem runLoop_emits_invariant (E : TEnv) :
    ∀ (tasks : List (String × List String)) (st : JState),
      st.total = sumVerifiedSizes st.files →
      List.Chain' (· ≤ ·) st.emits →
      st.emits.getLastD 0 = st.total →
      (runLoop E tasks st).1.total = sumVerifiedSizes (runLoop E tasks st).1.files ∧
      List.Chain' (· ≤ ·) (runLoop E tasks st).1.emits ∧
      (runLoop E tasks st).1.emits.getLastD 0 = (runLoop E tasks st).1.total := by
  intro tasks
  induction tasks with
  | nil => intro st h1 h2 h3; exact ⟨h1, h2, h3⟩
  | cons t rest ih =>
    intro st h1 h2 h3
    by_cases hf : E.sched.flag st.n
    · simp only [runLoop, hf, if_true]
      exact ⟨h1, h2, h3⟩
    · simp only [runLoop, hf, Bool.false_eq_true, if_false]
      apply ih
      · simp [stepFile, sumVerifiedSizes_append, sumVerifiedSizes, h1]
      · rw [stepFile]
        simp only []
        rw [List.chain'_append]
        refine ⟨h2, List.chain'_singleton _, ?_⟩
        intro a ha b hb
        simp only [List.head?_cons, Option.mem_def, Option.some.injEq] at hb
        subst hb
        have : st.emits.getLastD 0 = a := by
          rw [List.getLastD_eq_getLast?]
          simp only [Option.mem_def] at ha
          rw [ha]
          rfl
        rw [h3] at this
        omega
      · rw [stepFile]
        simp only []
        rw [List.getLastD_eq_getLast?, List.getLast?_concat]
        rfl

/-- The rewrite `finalizeReport` never touches the file list. -/
theorem finalizeReport_files (r : Report) (c : Option String) :
    (finalizeReport r c).files = r.files := by
  cases c <;> simp only [finalizeReport] <;> split <;> rfl

/-- C8: over the whole run — including cancelled runs — the emitted
cumulative byte counter is monotonically non-decreasing, and its final
value is exactly the sum of the sizes of the report files whose terminal
status is `'Verified'` (failed, unverified-error and cancelled files
contribute nothing). -/
theorem c8_progress_monotone_verified_only (E : TEnv) (sources : List String)
    (ismount : String → Bool) (fileList : List (String × List String))
    (fs : FS) (critical : Option String) :
    List.Chain' (· ≤ ·) (runJob E sources ismount fileList fs critical).emits ∧
    (runJob E sources ismount fileList fs critical).emits.getLastD 0 =
      sumVerifiedSizes (runJob E sources ismount fileList fs critical).report.files := by
  have hinv := runLoop_emits_invariant E fileList
    (jsInit fs (walkPhase E.sched fileList 0).1)
    (by simp [jsInit, sumVerifiedSizes]) (by simp [jsInit]) (by simp [jsInit])
  by_cases hw : (walkPhase E.sched fileList 0).2
  · simp [runJob, hw, sumVerifiedSizes]
  · by_cases hr : (runLoop E fileList (jsInit fs (walkPhase E.sched fileList 0).1)).2
    · simp only [runJob, hw, Bool.false_eq_true, if_false, hr, if_true]
      exact ⟨hinv.2.1, hinv.2.2.trans hinv.1⟩
    · simp only [runJob, hw, Bool.false_eq_true, if_false, hr, finalizeReport_files]
      exact ⟨hinv.2.1, hinv.2.2.trans hinv.1⟩

/-- The final rewrite of workers.py 344-349 can never leave `'Failed'`:
the critical handler that sets `'Failed'` also appends an error string,
and any non-empty error list rewrites the status to
`'Completed with errors'`. -/
theorem finalizeReport_status_ne_failed (r : Report) (c : Option String)
    (h : r.status ≠ "Failed") : (finalizeReport r c).status ≠ "Failed" := by
  cases c with
  | none =>
    by_cases he : r.errors = []
    · simpa [finalizeReport, he] using h
    · simp [finalizeReport, he]
  | some msg => simp [finalizeReport]

/-- C10: an emitted copy-job report never carries terminal status
`'Failed'`: cancelled early returns emit `'Cancelled'`, and on the
normal path the critical-exception handler's `'Failed'` is always
overwritten by the `'Completed with errors'` rewrite because that
handler also appends an error string. -/
theorem c10_final_status_never_failed (E : TEnv) (sources : List String)
    (ismount : String → Bool) (fileList : List (String × List String))
    (fs : FS) (critical : Option String) :
    (runJob E sources ismount fileList fs critical).report.status ≠ "Failed" := by
  by_cases hw : (walkPhase E.sched fileList 0).2
  · simp [runJob, hw]
  · by_cases hr : (runLoop E fileList (jsInit fs (walkPhase E.sched fileList 0).1)).2
    · simp [runJob, hw, hr]
    · have h := finalizeReport_status_ne_failed
        { files := (runLoop E fileList (jsInit fs (walkPhase E.sched fileList 0).1)).1.files,
          errors := (runLoop E fileList (jsInit fs (walkPhase E.sched fileList 0).1)).1.errors,
          status := "Completed",
          totalSize := (fileList.map (fun t => fsSize fs t.1)).sum,
          ejectable := if E.opts.ejectOnCompletion then
            ejectableSources ismount sources
              (runLoop E fileList (jsInit fs (walkPhase E.sched fileList 0).1)).1.files
            else [] }
        critical (by simp)
      simpa [runJob, hw, hr] using h

/-- The walk never observes a never-requested cancellation. -/
theorem walkPhase_schedNone :
    ∀ (l : List (String × List String)) (n : Nat),
      walkPhase schedNone l n = (n + l.length, false) := by
  intro l
  induction l with
  | nil => intro n; simp [walkPhase]
  | cons t rest ih =>
    intro n
    simp [walkPhase, ih (n + 1)]
    omega

/-- The file loop never early-returns on a never-cancelling schedule. -/
theorem runLoop_schedNone_snd (E : TEnv) (hs : E.sched = schedNone) :
    ∀ (tasks : List (String × List String)) (st : JState),
      (runLoop E tasks st).2 = false := by
  intro tasks
  induction tasks with
  | nil => intro st; rfl
  | cons t rest ih =>
    intro st
    simp [runLoop, hs, ih]

/-- The rewrite `finalizeReport` never touches the ejectable list. -/
theorem finalizeReport_ejectable (r : Report) (c : Option String) :
    (finalizeReport r c).ejectable = r.ejectable := by
  cases c <;> simp only [finalizeReport] <;> split <;> rfl

/-- C9 (amended): for an uncancelled copy job, a source root is in the
report's ejectable set exactly when eject-on-completion is set, the root
is one of the job's sources, the root is a mount point (`os.path.ismount`,
a condition the claim omits), and every report file whose source path
has the root as a string prefix has status `'Verified'`. -/
theorem c9_ejectable_membership (xxh md5 : Bytes → String) (opts : JobOpts)
    (method : String) (sources : List String) (ismount : String → Bool)
    (fileList : List (String × List String)) (fs : FS)
    (critical : Option String) (r : String) :
    r ∈ (runJob ⟨xxh, md5, schedNone, opts, method⟩ sources ismount fileList
        fs critical).report.ejectable ↔
      opts.ejectOnCompletion = true ∧ r ∈ sources ∧ ismount r = true ∧
      ∀ f ∈ (runJob ⟨xxh, md5, schedNone, opts, method⟩ sources ismount
          fileList fs critical).report.files,
        strStartsWith f.source r = true → f.status = "Verified" := by
  have hw : walkPhase schedNone fileList 0 = (fileList.length, false) := by
    simpa using walkPhase_schedNone fileList 0
  have hr := runLoop_schedNone_snd ⟨xxh, md5, schedNone, opts, method⟩ rfl
    fileList (jsInit fs fileList.length)
  simp only [runJob, hw, Bool.false_eq_true, if_false, hr,
    finalizeReport_ejectable, finalizeReport_files]
  by_cases he : opts.ejectOnCompletion
  · simp only [he, if_true, true_and, ejectableSources, List.mem_filter,
      List.mem_dedup, Bool.and_eq_true, List.all_eq_true, Bool.or_eq_true,
      Bool.not_eq_true', beq_iff_eq, and_assoc, and_congr_right_iff]
    intro _ _
    constructor
    · intro h f hf hsw
      rcases h f hf with h' | h'
      · rw [hsw] at h'; exact absurd h' (by simp)
      · exact h'
    · intro h f hf
      by_cases hsw : strStartsWith f.source r = true
      · exact Or.inr (h f hf hsw)
      · exact Or.inl (by simpa using hsw)
  · simp [he]

/-- C9 counterexample: a one-source job with eject-on-completion whose
single file verifies, but whose source root is not a mount point: the
code's additional `os.path.ismount` filter (workers.py 335) leaves the
ejectable set empty, while the claim's description ("the set of distinct
source roots for which every file originating under that root achieved
Verified status") requires the root to be present. -/
theorem c9_fully_verified_nonmount_root_excluded :
    (runJob envEject ["s"] (fun _ => false) [("s/f", ["d"])]
      [("s/f", [1])] none).report.ejectable = [] ∧
    envEject.opts.ejectOnCompletion = true ∧
    (runJob envEject ["s"] (fun _ => false) [("s/f", ["d"])]
      [("s/f", [1])] none).report.files.all
        (fun f => f.status == "Verified") = true ∧
    (runJob envEject ["s"] (fun _ => false) [("s/f", ["d"])]
      [("s/f", [1])] none).report.files.all
        (fun f => strStartsWith f.source "s") = true :=
  ⟨by decide, rfl, by decide, by decide⟩

/-- The manifest loop on a never-cancelling schedule classifies every
entry in order. -/
theorem mhlLoop_schedNone (xxh md5 : Bytes → String) (fs : FS)
    (targetDir : String) :
    ∀ (entries : List MhlEntry) (n : Nat) (acc : List VerifyRec),
      mhlLoop xxh md5 schedNone fs targetDir entries n acc =
        (acc ++ entries.map (mhlProcessEntry xxh md5 fs targetDir),
          n + entries.length, false) := by
  intro entries
  induction entries with
  | nil => intro n acc; simp [mhlLoop]
  | cons e rest ih =>
    intro n acc
    simp [mhlLoop, ih, List.append_assoc]
    omega

/-- Every branch of the per-entry classification records the resolved
path. -/
theorem mhlProcessEntry_path (xxh md5 : Bytes → String) (fs : FS)
    (targetDir : String) (e : MhlEntry) :
    (mhlProcessEntry xxh md5 fs targetDir e).path = joinPath targetDir e.relPath := by
  simp only [mhlProcessEntry]
  split_ifs <;> rfl

theorem mhlProcessEntry_missing (xxh md5 : Bytes → String) (fs : FS)
    (targetDir : String) (e : MhlEntry)
    (hex : fsExists fs (joinPath targetDir e.relPath) = false) :
    (mhlProcessEntry xxh md5 fs targetDir e).status = "Missing" := by
  simp [mhlProcessEntry, hex]

theorem mhlProcessEntry_hash (xxh md5 : Bytes → String) (fs : FS)
    (targetDir : String) (e : MhlEntry) (b : Bytes)
    (hb : fsLookup fs (joinPath targetDir e.relPath) = some b) :
    (mhlCalcHash xxh md5 e.hashType b = e.expected →
      (mhlProcessEntry xxh md5 fs targetDir e).status = "Verified" ∧
      (mhlProcessEntry xxh md5 fs targetDir e).actual = none) ∧
    (mhlCalcHash xxh md5 e.hashType b ≠ e.expected →
      (mhlProcessEntry xxh md5 fs targetDir e).status = "FAILED" ∧
      (mhlProcessEntry xxh md5 fs targetDir e).actual =
        some (mhlCalcHash xxh md5 e.hashType b)) := by
  have hex : fsExists fs (joinPath targetDir e.relPath) = true := by
    simp [fsExists, hb]
  constructor <;> intro hh <;> simp [mhlProcessEntry, hex, hb, hh]

/-- C6: for an uncancelled manifest-verification run — with or without a
critical exception — every entry is classified from its resolved path
(`Missing` when absent, otherwise re-hashed with the manifest's declared
algorithm: `Verified` on match, `FAILED` with the actual hash recorded
on mismatch), the counters count exactly those statuses, and the
terminal status is `'Completed with issues'` precisely when
`failed_count + missing_count > 0`. -/
theorem c6_mhl_classification_and_status (xxh md5 : Bytes → String)
    (fs : FS) (targetDir : String) (entries : List MhlEntry)
    (critical : Option String) :
    (mhlRun xxh md5 schedNone fs targetDir entries critical).files =
      entries.map (mhlProcessEntry xxh md5 fs targetDir) ∧
    (∀ e ∈ entries,
      ∃ rec ∈ (mhlRun xxh md5 schedNone fs targetDir entries critical).files,
        rec.path = joinPath targetDir e.relPath ∧
        (fsExists fs (joinPath targetDir e.relPath) = false →
          rec.status = "Missing") ∧
        (∀ b, fsLookup fs (joinPath targetDir e.relPath) = some b →
          (mhlCalcHash xxh md5 e.hashType b = e.expected →
            rec.status = "Verified") ∧
          (mhlCalcHash xxh md5 e.hashType b ≠ e.expected →
            rec.status = "FAILED" ∧
            rec.actual = some (mhlCalcHash xxh md5 e.hashType b)))) ∧
    ((mhlRun xxh md5 schedNone fs targetDir entries critical).status =
        "Completed with issues" ↔
      0 < (mhlRun xxh md5 schedNone fs targetDir entries critical).failedCount +
          (mhlRun xxh md5 schedNone fs targetDir entries critical).missingCount) ∧
    (mhlRun xxh md5 schedNone fs targetDir entries critical).verifiedCount =
      countStatus "Verified"
        (mhlRun xxh md5 schedNone fs targetDir entries critical).files ∧
    (mhlRun xxh md5 schedNone fs targetDir entries critical).failedCount =
      countStatus "FAILED"
        (mhlRun xxh md5 schedNone fs targetDir entries critical).files ∧
    (mhlRun xxh md5 schedNone fs targetDir entries critical).missingCount =
      countStatus "Missing"
        (mhlRun xxh md5 schedNone fs targetDir entries critical).files := by
  have hl := mhlLoop_schedNone xxh md5 fs targetDir entries 0 []
  refine ⟨?_, ?_, ?_, ?_, ?_, ?_⟩
  · simp [mhlRun, hl]
  · intro e he
    refine ⟨mhlProcessEntry xxh md5 fs targetDir e, ?_,
      mhlProcessEntry_path xxh md5 fs targetDir e, ?_, ?_⟩
    · simp only [mhlRun, hl]
      simp [List.mem_map]
      exact ⟨e, he, rfl⟩
    · exact mhlProcessEntry_missing xxh md5 fs targetDir e
    · intro b hb
      have h := mhlProcessEntry_hash xxh md5 fs targetDir e b hb
      exact ⟨fun hh => (h.1 hh).1, h.2⟩
  · by_cases h0 : 0 <
        countStatus "FAILED" (entries.map (mhlProcessEntry xxh md5 fs targetDir)) +
        countStatus "Missing" (entries.map (mhlProcessEntry xxh md5 fs targetDir))
    · simp [mhlRun, hl, h0]
    · cases critical <;> simp [mhlRun, hl, h0]
  · simp [mhlRun, hl]
  · simp [mhlRun, hl]
  · simp [mhlRun, hl]

/-- Witness for `c6_mhl_classification_and_status`: the spec's scenario —
a 3-entry manifest whose file #2 was deleted — yields
`verifiedCount = 2`, `missingCount = 1` and status
`'Completed with issues'`. -/
theorem c6_mhl_classification_and_status_witness :
    (mhlRun hashH hashH schedNone mhlFsW "t" mhlEntriesW none).verifiedCount = 2 ∧
    (mhlRun hashH hashH schedNone mhlFsW "t" mhlEntriesW none).missingCount = 1 ∧
    (mhlRun hashH hashH schedNone mhlFsW "t" mhlEntriesW none).status =
      "Completed with issues" ∧
    (∃ rec ∈ (mhlRun hashH hashH schedNone mhlFsW "t" mhlEntriesW none).files,
      rec.path = joinPath "t" "b" ∧ rec.status = "Missing") := by
  have h := c6_mhl_classification_and_status hashH hashH mhlFsW "t" mhlEntriesW none
  refine ⟨by decide, by decide, by decide, ?_⟩
  obtain ⟨rec, hmem, hpath, hmiss, _⟩ :=
    h.2.1 { relPath := "b", expected := "h", hashType := "xxhash64", size := 1 }
      (by decide)
  exact ⟨rec, hmem, hpath, hmiss (by decide)⟩

/-- Witness for `c7_rolling_speed_eta_formulas` at a concrete two-sample
history. -/
theorem c7_rolling_speed_eta_formulas_witness :
    rollingSpeedBps [((0 : ℚ), (0 : ℚ)), (5, 10)] =
      (if 1 < ([((0 : ℚ), (0 : ℚ)), (5, 10)] : List (ℚ × ℚ)).length ∧
          1 / 1000 < histTd [((0 : ℚ), (0 : ℚ)), (5, 10)]
       then histBd [((0 : ℚ), (0 : ℚ)), (5, 10)] /
          histTd [((0 : ℚ), (0 : ℚ)), (5, 10)]
       else 0) :=
  (c7_rolling_speed_eta_formulas [((0 : ℚ), (0 : ℚ)), (5, 10)] 0 0 0).1

/-- Witness for `c8_progress_monotone_verified_only` on a concrete
one-file job. -/
theorem c8_progress_monotone_verified_only_witness :
    List.Chain' (· ≤ ·)
      (runJob envFull ["s"] (fun _ => false) [("s", ["d"])] [("s", [1])] none).emits ∧
    (runJob envFull ["s"] (fun _ => false) [("s", ["d"])] [("s", [1])]
      none).emits.getLastD 0 =
      sumVerifiedSizes (runJob envFull ["s"] (fun _ => false) [("s", ["d"])]
        [("s", [1])] none).report.files :=
  c8_progress_monotone_verified_only envFull ["s"] (fun _ => false)
    [("s", ["d"])] [("s", [1])] none

/-- Witness for `c9_ejectable_membership`: a fully verified mount-point
root is ejectable. -/
theorem c9_ejectable_membership_witness :
    "s" ∈ (runJob ⟨hashH, hashH, schedNone, optsEject, "xxHash (Fast)"⟩
      ["s"] (fun _ => true) [("s/f", ["d"])] [("s/f", [1])]
      none).report.ejectable :=
  (c9_ejectable_membership hashH hashH optsEject "xxHash (Fast)" ["s"]
    (fun _ => true) [("s/f", ["d"])] [("s/f", [1])] none "s").mpr
    ⟨rfl, by decide, rfl, by decide⟩

/-- Witness for `c10_final_status_never_failed`: even a run with a
critical exception does not emit `'Failed'`. -/
theorem c10_final_status_never_failed_witness :
    (runJob envFull ["s"] (fun _ => false) [("s", ["d"])] [("s", [1])]
      (some "boom")).report.status ≠ "Failed" :=
  c10_final_status_never_failed envFull ["s"] (fun _ => false)
    [("s", ["d"])] [("s", [1])] (some "boom")
